import Mathlib

/-
Verification of the Unified File Processor of SecureDownloadsOrchestrator 2.0
(src/orchestrator/pipeline.py), as a shallow embedding in Lean 4.

Modelling conventions:
- Paths are strings; the file system is an association list from path strings
  to file contents (strings).  Only the side effects the pipeline performs
  (moves and writes) are tracked; directories are not materialised, and
  fallible OS calls (mkdir, shutil.move, open/write) are given failure
  oracles in a `World` structure.
- External collaborators (classifier, OCR engine, ClamAV subprocess, the
  archive entry listings and the walk over the extracted tree, and the
  recursive re-entry of extracted files into the pipeline) are oracles in
  `World`: the pipeline only depends on the values they return.
- `ProcessingResult.metadata` and the `*_at` timestamps are not modelled;
  no property below concerns them.  Timestamps used in quarantine names and
  audit records are provided by the `World` as opaque strings.
-/

/- Character-list helpers (kept first-order so every proof below can compute). -/

def leadsWith : List Char → List Char → Bool
  | [], _ => true
  | _ :: _, [] => false
  | a :: as, b :: bs => if a = b then leadsWith as bs else false

def hasSub (pat : List Char) : List Char → Bool
  | [] => leadsWith pat []
  | c :: cs => if leadsWith pat (c :: cs) then true else hasSub pat cs

def strHasSub (s pat : String) : Bool :=
  hasSub pat.toList s.toList

def strLeadsWith (s pat : String) : Bool :=
  leadsWith pat.toList s.toList

def strEndsWithL (s suf : String) : Bool :=
  leadsWith suf.toList.reverse s.toList.reverse

def strLower (s : String) : String :=
  String.mk (s.toList.map Char.toLower)

/- The literal " FOUND" that follows the captured threat name in the ClamAV
output pattern. -/

def foundLit : List Char := [' ', 'F', 'O', 'U', 'N', 'D']

/-
Semantics of Python `re.search(r": (.+) FOUND", output)` from
`_scan_file_security` (pipeline.py line 419).  `re.search` takes the
leftmost starting position at which the whole pattern matches; `.` does not
match a newline; `.+` is greedy, so at that position the group extends to
the rightmost later occurrence of " FOUND" that is reachable without
crossing a newline.  `greedyGroup t` returns the group when the pattern
`(.+) FOUND` matches a prefix of `t` this way.
-/

def greedyGroup : List Char → Option (List Char)
  | [] => none
  | c :: cs =>
    if c = '\n' then none
    else
      match greedyGroup cs with
      | some g => some (c :: g)
      | none => if leadsWith foundLit cs then some [c] else none

def findThreatAux (c1 : Char) : List Char → Option (List Char)
  | [] => none
  | c2 :: t =>
    if c1 = ':' ∧ c2 = ' ' then
      match greedyGroup t with
      | some g => some g
      | none => findThreatAux c2 t
    else findThreatAux c2 t

def findThreat : List Char → Option (List Char)
  | [] => none
  | c :: cs => findThreatAux c cs

/- Data model (pipeline.py lines 48-91). -/

structure SecurityScanResult where
  is_clean : Bool
  threat_name : Option String
  scan_output : Option String
deriving DecidableEq

structure ProcessingResult where
  success : Bool
  final_path : Option String
  error : Option String
deriving DecidableEq

/- Outcome of the `subprocess.run(["clamscan", ...])` call: normal exit with
a return code and combined stdout+stderr, a `TimeoutExpired`, or any other
exception. -/

inductive ScanOutcome where
  | exited (rc : Int) (out : String)
  | timeout
  | raised (msg : String)
deriving DecidableEq

/-
`UnifiedFileProcessor._scan_file_security` (pipeline.py lines 376-457) as a
function of the two policy booleans read from `self`, the file path, and the
subprocess outcome.
-/

def scanFileSecurity (clamavAvailable failClosed : Bool) (_fp : String)
    (o : ScanOutcome) : SecurityScanResult :=
  if !clamavAvailable then
    if failClosed then
      ⟨false, some "AVUnavailable", some "Antivirus scanner not available"⟩
    else
      ⟨true, none, none⟩
  else
    match o with
    | .exited rc out =>
      if rc = 0 then ⟨true, none, some out⟩
      else if rc = 1 then
        match findThreat out.toList with
        | some g => ⟨false, some (String.mk g), some out⟩
        | none => ⟨false, some "Unknown threat", some out⟩
      else
        if failClosed then ⟨false, some "ScanError", some ("Scan error: " ++ out)⟩
        else ⟨true, none, none⟩
    | .timeout =>
      if failClosed then ⟨false, some "ScanTimeout", some "Security scan timed out"⟩
      else ⟨true, none, none⟩
    | .raised msg =>
      if failClosed then ⟨false, some "ScanException", some ("Scan exception: " ++ msg)⟩
      else ⟨true, none, none⟩

/- Regex lemmas used for claim C6. -/

theorem greedyGroup_cons (c : Char) (cs : List Char) :
    greedyGroup (c :: cs) =
      if c = '\n' then none
      else
        match greedyGroup cs with
        | some g => some (c :: g)
        | none => if leadsWith foundLit cs then some [c] else none := rfl

theorem greedyGroup_append_foundLit (n : List Char) (h1 : n ≠ [])
    (h2 : ∀ c ∈ n, c ≠ ' ' ∧ c ≠ '\n') :
    greedyGroup (n ++ foundLit) = some n := by
  induction n with
  | nil => exact absurd rfl h1
  | cons c cs ih =>
    have hc := h2 c (by simp)
    cases cs with
    | nil =>
      have hbase : greedyGroup foundLit = none := by decide
      have hpref : leadsWith foundLit foundLit = true := by decide
      rw [List.singleton_append, greedyGroup_cons, if_neg hc.2, hbase, hpref]
      simp
    | cons d ds =>
      have ih' := ih (by simp) (fun x hx => h2 x (by simp [hx]))
      rw [List.cons_append, greedyGroup_cons, if_neg hc.2, ih']

theorem findThreatAux_cons (c1 c2 : Char) (t : List Char) :
    findThreatAux c1 (c2 :: t) =
      if c1 = ':' ∧ c2 = ' ' then
        match greedyGroup t with
        | some g => some g
        | none => findThreatAux c2 t
      else findThreatAux c2 t := rfl

theorem findThreatAux_pre (p t g : List Char) (a : Char) (ha : a ≠ ':')
    (hp : ∀ c ∈ p, c ≠ ':') (hg : greedyGroup t = some g) :
    findThreatAux a (p ++ ':' :: ' ' :: t) = some g := by
  induction p generalizing a with
  | nil =>
    rw [List.nil_append, findThreatAux_cons]
    rw [if_neg (by simp [ha]), findThreatAux_cons, if_pos (by simp), hg]
  | cons b p' ih =>
    rw [List.cons_append, findThreatAux_cons,
      if_neg (by simp [ha]), ih b (hp b (by simp)) (fun c hc => hp c (by simp [hc]))]

theorem findThreat_append (p t g : List Char) (hp : ∀ c ∈ p, c ≠ ':')
    (hg : greedyGroup t = some g) :
    findThreat (p ++ ':' :: ' ' :: t) = some g := by
  cases p with
  | nil =>
    show findThreatAux ':' (' ' :: t) = some g
    rw [findThreatAux_cons, if_pos (by simp), hg]
  | cons a p' =>
    show findThreatAux a (p' ++ ':' :: ' ' :: t) = some g
    exact findThreatAux_pre p' t g a (hp a (by simp))
      (fun c hc => hp c (by simp [hc])) hg

/-- C1: with the scanner executable unavailable, a fail-closed scan of any
file yields `is_clean = false` with threat name "AVUnavailable", and a
fail-open scan of the same condition yields `is_clean = true`
(pipeline.py lines 386-398, default `fail_closed = True` at lines 139-141). -/
theorem C1_scan_unavailable_policy (fp : String) (o : ScanOutcome) :
    scanFileSecurity false true fp o =
      ⟨false, some "AVUnavailable", some "Antivirus scanner not available"⟩ ∧
    (scanFileSecurity false false fp o).is_clean = true := by
  constructor <;> rfl

/-- C6 counterexample: the scanner exits with code 1 and its output contains
"Malware FOUND", yet the parsed threat name is "Unknown threat", not
"Malware": the code parses with the pattern ": (.+) FOUND", which requires a
": " before the name, while the claim promises a parse for any output
containing "<name> FOUND". -/
theorem C6_counterexample_regex :
    scanFileSecurity true true "f" (.exited 1 "Malware FOUND") =
      ⟨false, some "Unknown threat", some "Malware FOUND"⟩ ∧
    "Malware FOUND" = "Malware" ++ " FOUND" ∧
    ("Unknown threat" : String) ≠ "Malware" := by
  refine ⟨by decide, rfl, by decide⟩

/-- C6 (amended): when the scanner exits with code 1, `is_clean` is false and
the threat name is parsed with the pattern ": (.+) FOUND": whenever the
combined output has the form "<prefix>: <name> FOUND" with no colon in the
prefix and a nonempty name free of spaces and newlines, `threat_name`
equals `<name>`; an output containing "<name> FOUND" without a preceding
": " yields the placeholder "Unknown threat" instead. -/
theorem C6_amended_threat_parse (fc : Bool) (fp : String) (p n : List Char)
    (hp : ∀ c ∈ p, c ≠ ':') (h1 : n ≠ [])
    (h2 : ∀ c ∈ n, c ≠ ' ' ∧ c ≠ '\n') :
    scanFileSecurity true fc fp
        (.exited 1 (String.mk (p ++ ':' :: ' ' :: (n ++ foundLit)))) =
      ⟨false, some (String.mk n),
        some (String.mk (p ++ ':' :: ' ' :: (n ++ foundLit)))⟩ := by
  have hg := greedyGroup_append_foundLit n h1 h2
  have hf := findThreat_append p (n ++ foundLit) n hp hg
  simp [scanFileSecurity, String.toList, hf]

/-- C6 amended witness: concrete instance, scanner output
"/tmp/x: Eicar-Test-Signature FOUND". -/
theorem C6_amended_witness :
    scanFileSecurity true true "/tmp/x"
        (.exited 1 (String.mk ("/tmp/x".toList ++ ':' :: ' ' ::
          ("Eicar-Test-Signature".toList ++ foundLit)))) =
      ⟨false, some (String.mk "Eicar-Test-Signature".toList),
        some (String.mk ("/tmp/x".toList ++ ':' :: ' ' ::
          ("Eicar-Test-Signature".toList ++ foundLit)))⟩ :=
  C6_amended_threat_parse true "/tmp/x" "/tmp/x".toList
    "Eicar-Test-Signature".toList (by decide) (by decide) (by decide)

/- File-system model: an association list from absolute path strings to file
contents.  Only the pipeline side effects (moves, writes) are tracked. -/

abbrev FS := List (String × String)

def lookupFS : FS → String → Option String
  | [], _ => none
  | (q, c) :: rest, p => if q = p then some c else lookupFS rest p

def eraseFS : FS → String → FS
  | [], _ => []
  | (q, c) :: rest, p => if q = p then eraseFS rest p else (q, c) :: eraseFS rest p

def setFS (fs : FS) (p c : String) : FS :=
  (p, c) :: eraseFS fs p

def pjoin (a b : String) : String := a ++ "/" ++ b

/- `Path(fp).name`: the part after the last "/". -/
def pathName (p : String) : String :=
  String.mk (p.toList.foldl (fun acc c => if c = '/' then [] else acc ++ [c]) [])

/- Archive-related source data (pipeline.py lines 142-150 and 620-681). -/

structure ArchiveLimits where
  max_files : Nat
  max_total_size : Nat
  max_depth : Nat
  max_file_size : Nat
deriving DecidableEq

structure ZipEntry where
  filename : String
  file_size : Nat
deriving DecidableEq

structure TarEntry where
  name : String
  size : Nat
  isfile : Bool
deriving DecidableEq

/- One directory visited by `os.walk` over the extracted tree: its path
parts relative to the temp extraction root, and the stat sizes of the files
directly inside it, in walk order. -/
structure WalkDir where
  relParts : List String
  fileSizes : List Nat
deriving DecidableEq

structure OCRMeta where
  dateDetected : Option String
  businessContext : Option String
  sender : Option String
deriving DecidableEq

/- Static configuration read from `config` at construction
(pipeline.py lines 116-160).  `categories` maps a config category name to
its "destination" sub-directory. -/
structure Config where
  sourceDir : String
  destinationDir : String
  quarantineDir : String
  tmpDir : String
  enableSecurityScan : Bool
  enableOcr : Bool
  enableArchiveExtraction : Bool
  failClosed : Bool
  limits : ArchiveLimits
  checkStability : Bool
  categories : List (String × String)

/- Environment oracles: results of external collaborators and of fallible
OS calls, plus the wall clock.  `recurse` models the recursive
`self.process_file(extracted_file)` re-entry for one extracted member
(pipeline.py line 591), whose per-file outcome the claims below do not
constrain. -/
structure World where
  clamavAvailable : Bool
  scanOutcome : String → ScanOutcome
  isFile : String → Bool
  resolvesUnder : String → String → Bool
  stable : String → Bool
  classify : String → String
  ocr : String → Option OCRMeta
  zipEntries : String → List ZipEntry
  tarEntries : String → List TarEntry
  extractedTree : String → List WalkDir
  extractedFiles : String → List String
  recurse : FS → String → ProcessingResult × FS
  moveFails : String → String → Bool
  mkdirFails : String → Bool
  writeFails : String → Bool
  now : String
  nowIso : String

/- Fallible OS operations.  `shutil.move` fails when the oracle says so or
when the source does not exist; on success the destination holds the moved
content and the source entry is gone. -/

def moveFile (w : World) (fs : FS) (src dst : String) : Except String FS :=
  if w.moveFails src dst then .error ("move failed: " ++ src)
  else
    match lookupFS fs src with
    | none => .error ("no such file: " ++ src)
    | some c => .ok (setFS (eraseFS fs src) dst c)

def writeFS (w : World) (fs : FS) (p c : String) : Except String FS :=
  if w.writeFails p then .error ("write failed: " ++ p) else .ok (setFS fs p c)

/- Quarantine manager (`_quarantine_file`, pipeline.py lines 459-498). -/

def quarantinePath (cfg : Config) (w : World) (fp : String) : String :=
  pjoin cfg.quarantineDir (w.now ++ "_" ++ pathName fp)

def auditRecord (w : World) (fp : String) (sr : SecurityScanResult) : String :=
  "Quarantine Date: " ++ w.nowIso ++ "\n" ++
  "Original Path: " ++ fp ++ "\n" ++
  "Threat Name: " ++ (sr.threat_name.getD "None") ++ "\n" ++
  "Scan Output:\n" ++ (sr.scan_output.getD "None") ++ "\n"

def quarantineFile (cfg : Config) (w : World) (fs : FS) (fp : String)
    (sr : SecurityScanResult) : ProcessingResult × FS :=
  let qp := quarantinePath cfg w fp
  match moveFile w fs fp qp with
  | .error m => (⟨false, none, some ("Quarantine failed: " ++ m)⟩, fs)
  | .ok fs1 =>
    match writeFS w fs1 (qp ++ ".log") (auditRecord w fp sr) with
    | .error m => (⟨false, none, some ("Quarantine failed: " ++ m)⟩, fs1)
    | .ok fs2 => (⟨true, some qp, none⟩, fs2)

/- Association-list lemmas shared by the claims below. -/

theorem lookupFS_eraseFS_self (fs : FS) (p : String) :
    lookupFS (eraseFS fs p) p = none := by
  induction fs with
  | nil => rfl
  | cons e rest ih =>
    obtain ⟨a, b⟩ := e
    by_cases h : a = p
    · simpa [eraseFS, h] using ih
    · simpa [eraseFS, lookupFS, h] using ih

theorem lookupFS_eraseFS_ne (fs : FS) (p q : String) (h : p ≠ q) :
    lookupFS (eraseFS fs p) q = lookupFS fs q := by
  induction fs with
  | nil => rfl
  | cons e rest ih =>
    obtain ⟨a, b⟩ := e
    by_cases he : a = p
    · simp [eraseFS, lookupFS, he, h, ih]
    · by_cases hq : a = q
      · simp [eraseFS, lookupFS, he, hq, Ne.symm h]
      · simp [eraseFS, lookupFS, he, hq, ih]

theorem lookupFS_setFS_self (fs : FS) (p c : String) :
    lookupFS (setFS fs p c) p = some c := by
  simp [setFS, lookupFS]

theorem lookupFS_setFS_ne (fs : FS) (p c : String) (q : String) (h : p ≠ q) :
    lookupFS (setFS fs p c) q = lookupFS fs q := by
  simp [setFS, lookupFS, h, lookupFS_eraseFS_ne fs p q h]

def exOk {ε α : Type} : Except ε α → Bool
  | .ok _ => true
  | .error _ => false

/- Concrete fixtures for closed statements below. -/

def cfgQ : Config :=
  { sourceDir := "/watch", destinationDir := "/dst", quarantineDir := "/q",
    tmpDir := "/tmp", enableSecurityScan := true, enableOcr := false,
    enableArchiveExtraction := true, failClosed := true,
    limits := ⟨1000, 100000000, 10, 50000000⟩, checkStability := false,
    categories := [("documents", "documents"), ("archives", "archives")] }

def wQ : World :=
  { clamavAvailable := true, scanOutcome := fun _ => .exited 0 "",
    isFile := fun _ => true, resolvesUnder := fun _ _ => true,
    stable := fun _ => true, classify := fun _ => "document",
    ocr := fun _ => none, zipEntries := fun _ => [], tarEntries := fun _ => [],
    extractedTree := fun _ => [], extractedFiles := fun _ => [],
    recurse := fun fs _ => (⟨false, none, some "skipped"⟩, fs),
    moveFails := fun _ _ => false, mkdirFails := fun _ => false,
    writeFails := fun _ => true, now := "20260101_000000",
    nowIso := "2026-01-01T00:00:00" }

def wQ2 : World :=
  { wQ with writeFails := fun _ => false }

def srQ : SecurityScanResult := ⟨false, some "EICAR", some "f: EICAR FOUND"⟩

/-- C8 counterexample: a quarantine operation in which the filesystem move
succeeds but the companion audit-log write fails returns a failed result,
contradicting the claim that a failed result arises only when the move
itself fails (the log write at pipeline.py lines 487-492 sits inside the
same try block as the move). -/
theorem C8_counterexample_log_write :
    (quarantineFile cfgQ wQ [("/watch/f.txt", "data")] "/watch/f.txt"
      srQ).1.success = false ∧
    wQ.moveFails "/watch/f.txt" (quarantinePath cfgQ wQ "/watch/f.txt") = false ∧
    exOk (moveFile wQ [("/watch/f.txt", "data")] "/watch/f.txt"
      (quarantinePath cfgQ wQ "/watch/f.txt")) = true := by
  refine ⟨by decide, rfl, by decide⟩

/-- C8 (amended): every quarantine operation moves the file into the
quarantine directory under a timestamp-prefixed name and writes a companion
audit record (original path, threat name, scan output, timestamp) alongside
it; when the move and the audit write both succeed it returns a successful
result carrying the new quarantine path, and it returns a failed result
only if the filesystem move or the audit-record write fails. -/
theorem C8_amended_quarantine :
    (∀ (cfg : Config) (w : World) (fs : FS) (fp : String)
        (sr : SecurityScanResult) (c : String),
      lookupFS fs fp = some c →
      w.moveFails fp (quarantinePath cfg w fp) = false →
      w.writeFails (quarantinePath cfg w fp ++ ".log") = false →
      quarantineFile cfg w fs fp sr =
        (⟨true, some (quarantinePath cfg w fp), none⟩,
          setFS (setFS (eraseFS fs fp) (quarantinePath cfg w fp) c)
            (quarantinePath cfg w fp ++ ".log") (auditRecord w fp sr)) ∧
      lookupFS (quarantineFile cfg w fs fp sr).2
          (quarantinePath cfg w fp ++ ".log") = some (auditRecord w fp sr)) ∧
    (∀ (cfg : Config) (w : World) (fs : FS) (fp : String)
        (sr : SecurityScanResult),
      (quarantineFile cfg w fs fp sr).1.success = false →
      exOk (moveFile w fs fp (quarantinePath cfg w fp)) = false ∨
      w.writeFails (quarantinePath cfg w fp ++ ".log") = true) := by
  constructor
  · intro cfg w fs fp sr c hl hm hw
    have hq : quarantineFile cfg w fs fp sr =
        (⟨true, some (quarantinePath cfg w fp), none⟩,
          setFS (setFS (eraseFS fs fp) (quarantinePath cfg w fp) c)
            (quarantinePath cfg w fp ++ ".log") (auditRecord w fp sr)) := by
      simp [quarantineFile, moveFile, writeFS, hl, hm, hw]
    refine ⟨hq, ?_⟩
    rw [hq]
    exact lookupFS_setFS_self _ _ _
  · intro cfg w fs fp sr h
    cases hm : moveFile w fs fp (quarantinePath cfg w fp) with
    | error m => exact Or.inl (by simp [exOk, hm])
    | ok fs1 =>
      cases hw : w.writeFails (quarantinePath cfg w fp ++ ".log") with
      | true => exact Or.inr rfl
      | false =>
        exfalso
        rw [quarantineFile.eq_def] at h
        simp [hm, writeFS, hw] at h

/-- C8 amended witness: concrete quarantine with both operations
succeeding. -/
theorem C8_amended_witness :
    quarantineFile cfgQ wQ2 [("/watch/f.txt", "data")] "/watch/f.txt" srQ =
      (⟨true, some (quarantinePath cfgQ wQ2 "/watch/f.txt"), none⟩,
        setFS (setFS (eraseFS [("/watch/f.txt", "data")] "/watch/f.txt")
            (quarantinePath cfgQ wQ2 "/watch/f.txt") "data")
          (quarantinePath cfgQ wQ2 "/watch/f.txt" ++ ".log")
          (auditRecord wQ2 "/watch/f.txt" srQ)) ∧
    lookupFS (quarantineFile cfgQ wQ2 [("/watch/f.txt", "data")]
        "/watch/f.txt" srQ).2
      (quarantinePath cfgQ wQ2 "/watch/f.txt" ++ ".log") =
      some (auditRecord wQ2 "/watch/f.txt" srQ) ∧
    (exOk (moveFile wQ [("/watch/f.txt", "data")] "/watch/f.txt"
        (quarantinePath cfgQ wQ "/watch/f.txt")) = false ∨
      wQ.writeFails (quarantinePath cfgQ wQ "/watch/f.txt" ++ ".log") = true) :=
  ⟨(C8_amended_quarantine.1 cfgQ wQ2 [("/watch/f.txt", "data")] "/watch/f.txt"
      srQ "data" (by decide) rfl rfl).1,
    (C8_amended_quarantine.1 cfgQ wQ2 [("/watch/f.txt", "data")] "/watch/f.txt"
      srQ "data" (by decide) rfl rfl).2,
    C8_amended_quarantine.2 cfgQ wQ [("/watch/f.txt", "data")] "/watch/f.txt"
      srQ (by decide)⟩

/- File organizer (`_organize_file`, pipeline.py lines 863-954). -/

/- The fixed classifier-to-config category mapping (lines 885-893). -/
def mapCategory (c : String) : String :=
  if c = "document" then "documents"
  else if c = "image" then "images"
  else if c = "audio" then "audio"
  else if c = "video" then "video"
  else if c = "archive" then "archives"
  else if c = "code" then "code"
  else if c = "executable" then "executables"
  else c

def lookupD : List (String × String) → String → String → String
  | [], _, d => d
  | (a, b) :: rest, k, d => if a = k then b else lookupD rest k d

/- Characters replaced by "_" when the sender segment is sanitised
(line 915). -/
def badChar (c : Char) : Bool :=
  c == '<' || c == '>' || c == ':' || c == '"' || c == '/' || c == '\\' ||
  c == '|' || c == '?' || c == '*'

def sanitizeSender (s : String) : String :=
  String.mk ((s.toList.take 50).map (fun c => if badChar c then '_' else c))

/- The optional date / business-context / sender path segments
(lines 903-916).  Python truthiness skips empty context and sender
strings. -/
def enrichSegments (md : Option OCRMeta) : List String :=
  match md with
  | none => []
  | some m =>
    (match m.dateDetected with
     | some d => [d]
     | none => []) ++
    (match m.businessContext with
     | some b => if b = "" then [] else [b]
     | none => []) ++
    (match m.sender with
     | some s => if s = "" then [] else [sanitizeSender s]
     | none => [])

/- The conflict-resolution candidate for counter k (lines 923-932):
counter 0 is the original filename; counter k splits at the last dot,
mirroring `filename.rsplit(".", 1)`. -/
def candName (filename : String) (k : Nat) : String :=
  match k with
  | 0 => filename
  | Nat.succ _ =>
    let r := filename.toList.reverse
    let extRev := r.takeWhile (fun c => c != '.')
    if extRev.length = r.length then
      filename ++ "_" ++ toString k
    else
      String.mk (r.drop (extRev.length + 1)).reverse ++ "_" ++ toString k ++
        "." ++ String.mk extRev.reverse

/- The `while final_path.exists()` loop.  The loop in the source is bounded
only by the files that exist, so it is run here with fuel `fs.length + 1`,
which always suffices: the candidates are pairwise distinct and the file
system holds `fs.length` paths. -/
def resolveConflictAux (fs : FS) (dir filename : String) :
    Nat → Nat → String
  | 0, k => candName filename k
  | fuel + 1, k =>
    let c := candName filename k
    if (lookupFS fs (pjoin dir c)).isSome then
      resolveConflictAux fs dir filename fuel (k + 1)
    else c

def resolveConflict (fs : FS) (dir filename : String) : String :=
  resolveConflictAux fs dir filename (fs.length + 1) 0

/- The fallback placement (lines 941-954): the flat category directory,
looked up under the raw classifier category, with the original filename.
A failure here re-raises. -/
def organizeFallback (cfg : Config) (w : World) (fs : FS)
    (fp cat filename : String) : Except String (String × FS) :=
  let fbDir := pjoin cfg.destinationDir (lookupD cfg.categories cat cat)
  let fbDest := pjoin fbDir filename
  if w.mkdirFails fbDir then .error ("mkdir failed: " ++ fbDir)
  else
    match moveFile w fs fp fbDest with
    | .ok fs1 => .ok (fbDest, fs1)
    | .error m => .error m

def organizeFile (cfg : Config) (w : World) (fs : FS) (fp cat : String)
    (md : Option OCRMeta) : Except String (String × FS) :=
  let filename := pathName fp
  let baseDest := lookupD cfg.categories (mapCategory cat) cat
  let destParts := baseDest :: enrichSegments md
  let finalDestDir := destParts.foldl pjoin cfg.destinationDir
  if w.mkdirFails finalDestDir then organizeFallback cfg w fs fp cat filename
  else
    let finalPath := pjoin finalDestDir (resolveConflict fs finalDestDir filename)
    match moveFile w fs fp finalPath with
    | .ok fs1 => .ok (finalPath, fs1)
    | .error _ => organizeFallback cfg w fs fp cat filename

/-- C9: whenever building the enriched destination path fails (modelled by
the mkdir of the enriched directory failing), the organizer falls back to
the flat category/filename placement and still moves the file: the result
carries the fallback path, the content is at the fallback destination and
no longer at the source. -/
theorem C9_organizer_fallback (cfg : Config) (w : World) (fs : FS)
    (fp cat : String) (md : Option OCRMeta) (c : String)
    (hmk : w.mkdirFails ((lookupD cfg.categories (mapCategory cat) cat ::
      enrichSegments md).foldl pjoin cfg.destinationDir) = true)
    (hl : lookupFS fs fp = some c)
    (hmk2 : w.mkdirFails
      (pjoin cfg.destinationDir (lookupD cfg.categories cat cat)) = false)
    (hmv : w.moveFails fp (pjoin (pjoin cfg.destinationDir
      (lookupD cfg.categories cat cat)) (pathName fp)) = false)
    (hne : fp ≠ pjoin (pjoin cfg.destinationDir
      (lookupD cfg.categories cat cat)) (pathName fp)) :
    organizeFile cfg w fs fp cat md =
      .ok (pjoin (pjoin cfg.destinationDir (lookupD cfg.categories cat cat))
          (pathName fp),
        setFS (eraseFS fs fp)
          (pjoin (pjoin cfg.destinationDir (lookupD cfg.categories cat cat))
            (pathName fp)) c) ∧
    lookupFS (setFS (eraseFS fs fp)
        (pjoin (pjoin cfg.destinationDir (lookupD cfg.categories cat cat))
          (pathName fp)) c)
      (pjoin (pjoin cfg.destinationDir (lookupD cfg.categories cat cat))
        (pathName fp)) = some c ∧
    lookupFS (setFS (eraseFS fs fp)
        (pjoin (pjoin cfg.destinationDir (lookupD cfg.categories cat cat))
          (pathName fp)) c) fp = none := by
  have hmk' : w.mkdirFails (List.foldl pjoin
      (pjoin cfg.destinationDir (lookupD cfg.categories (mapCategory cat) cat))
      (enrichSegments md)) = true := by simpa using hmk
  refine ⟨?_, lookupFS_setFS_self _ _ _, ?_⟩
  · simp [organizeFile, hmk', organizeFallback, hmk2, moveFile, hmv, hl]
  · rw [lookupFS_setFS_ne _ _ _ _ (Ne.symm hne)]
    exact lookupFS_eraseFS_self fs fp

/- Archive processor: entry-list pre-scans (pipeline.py lines 620-681). -/

/- Traversal test applied to archive member names (lines 633 and 663). -/
def travName (s : String) : Bool :=
  strHasSub s ".." || strLeadsWith s "/"

def zipPrescanAux (lim : ArchiveLimits) :
    List ZipEntry → Nat → Nat → Except String Unit
  | [], _, _ => .ok ()
  | e :: rest, count, total =>
    if count + 1 > lim.max_files then .error "ZIP file count exceeds limit"
    else if travName e.filename then
      .error ("Path traversal detected in ZIP member: " ++ e.filename)
    else if total + e.file_size > lim.max_total_size then
      .error "ZIP total size exceeds limit"
    else if e.file_size > lim.max_file_size then
      .error "ZIP member size exceeds limit"
    else zipPrescanAux lim rest (count + 1) (total + e.file_size)

def extractZipWithProtection (lim : ArchiveLimits) (entries : List ZipEntry) :
    Except String Unit :=
  zipPrescanAux lim entries 0 0

/- The TAR pre-scan accumulates and bounds sizes only for members with
`member.isfile()` (lines 668-678). -/
def tarPrescanAux (lim : ArchiveLimits) :
    List TarEntry → Nat → Nat → Except String Unit
  | [], _, _ => .ok ()
  | e :: rest, count, total =>
    if count + 1 > lim.max_files then .error "TAR file count exceeds limit"
    else if travName e.name then
      .error ("Path traversal detected in TAR member: " ++ e.name)
    else if e.isfile then
      if total + e.size > lim.max_total_size then
        .error "TAR total size exceeds limit"
      else if e.size > lim.max_file_size then
        .error "TAR member size exceeds limit"
      else tarPrescanAux lim rest (count + 1) (total + e.size)
    else tarPrescanAux lim rest (count + 1) total

def extractTarWithProtection (lim : ArchiveLimits) (entries : List TarEntry) :
    Except String Unit :=
  tarPrescanAux lim entries 0 0

def zipTotal : List ZipEntry → Nat
  | [] => 0
  | e :: r => e.file_size + zipTotal r

def tarTotal : List TarEntry → Nat
  | [] => 0
  | e :: r => (if e.isfile then e.size else 0) + tarTotal r

/- Post-extraction walk over the extracted tree (lines 539-573): recomputes
depth per directory and count / per-file size / cumulative size per file. -/

def walkFiles (lim : ArchiveLimits) :
    List Nat → Nat → Nat → Except String (Nat × Nat)
  | [], c, t => .ok (c, t)
  | sz :: rest, c, t =>
    if c + 1 > lim.max_files then .error "Archive file count exceeds limit"
    else if sz > lim.max_file_size then .error "File size exceeds limit"
    else if t + sz > lim.max_total_size then
      .error "Total extracted size exceeds limit"
    else walkFiles lim rest (c + 1) (t + sz)

def walkCheckAux (lim : ArchiveLimits) :
    List WalkDir → Nat → Nat → Except String (Nat × Nat)
  | [], c, t => .ok (c, t)
  | d :: rest, c, t =>
    if d.relParts.length > lim.max_depth then .error "Archive depth exceeds limit"
    else
      match walkFiles lim d.fileSizes c t with
      | .error m => .error m
      | .ok (c', t') => walkCheckAux lim rest c' t'

def walkCheck (lim : ArchiveLimits) (tree : List WalkDir) :
    Except String (Nat × Nat) :=
  walkCheckAux lim tree 0 0

def limC : ArchiveLimits := ⟨10, 1000000, 10, 10⟩

/-- C2 counterexample: a TAR archive with a single non-regular-file member
whose declared size exceeds max_file_size passes the TAR pre-scan, while the
ZIP pre-scan rejects an entry of the same declared size: the per-entry and
cumulative size limits are not applied uniformly to both families, because
the TAR pre-scan sizes only members with `member.isfile()`. -/
theorem C2_counterexample_tar_nonfile_size :
    extractTarWithProtection limC [⟨"payload", 100, false⟩] = .ok () ∧
    (100 : Nat) > limC.max_file_size ∧
    exOk (extractZipWithProtection limC [⟨"payload", 100⟩]) = false := by
  refine ⟨rfl, by decide, by decide⟩

theorem zipPrescanAux_err (lim : ArchiveLimits) (es : List ZipEntry) :
    ∀ count total, count ≤ lim.max_files → total ≤ lim.max_total_size →
    (count + es.length > lim.max_files ∨
      (∃ e ∈ es, travName e.filename = true) ∨
      total + zipTotal es > lim.max_total_size ∨
      (∃ e ∈ es, e.file_size > lim.max_file_size)) →
    exOk (zipPrescanAux lim es count total) = false := by
  induction es with
  | nil =>
    intro count total hc ht h
    simp [zipTotal] at h
    rcases h with h | h <;> omega
  | cons e rest ih =>
    intro count total hc ht h
    by_cases h1 : count + 1 > lim.max_files
    · simp [zipPrescanAux, h1, exOk]
    by_cases h2 : travName e.filename = true
    · simp [zipPrescanAux, h1, h2, exOk]
    by_cases h3 : total + e.file_size > lim.max_total_size
    · simp [zipPrescanAux, h1, h2, h3, exOk]
    by_cases h4 : e.file_size > lim.max_file_size
    · simp [zipPrescanAux, h1, h2, h3, h4, exOk]
    rw [show zipPrescanAux lim (e :: rest) count total =
        zipPrescanAux lim rest (count + 1) (total + e.file_size) by
      simp [zipPrescanAux, h1, h2, h3, h4]]
    apply ih (count + 1) (total + e.file_size) (by omega) (by omega)
    rcases h with h | h | h | h
    · left; simp at h ⊢; omega
    · rcases h with ⟨x, hx, hxt⟩
      rcases List.mem_cons.mp hx with rfl | hx'
      · exact absurd hxt h2
      · exact Or.inr (Or.inl ⟨x, hx', hxt⟩)
    · refine Or.inr (Or.inr (Or.inl ?_))
      simp [zipTotal] at h; omega
    · rcases h with ⟨x, hx, hxt⟩
      rcases List.mem_cons.mp hx with rfl | hx'
      · exact absurd hxt h4
      · exact Or.inr (Or.inr (Or.inr ⟨x, hx', hxt⟩))

theorem tarPrescanAux_err (lim : ArchiveLimits) (es : List TarEntry) :
    ∀ count total, count ≤ lim.max_files → total ≤ lim.max_total_size →
    (count + es.length > lim.max_files ∨
      (∃ e ∈ es, travName e.name = true) ∨
      total + tarTotal es > lim.max_total_size ∨
      (∃ e ∈ es, e.isfile = true ∧ e.size > lim.max_file_size)) →
    exOk (tarPrescanAux lim es count total) = false := by
  induction es with
  | nil =>
    intro count total hc ht h
    simp [tarTotal] at h
    rcases h with h | h <;> omega
  | cons e rest ih =>
    intro count total hc ht h
    by_cases h1 : count + 1 > lim.max_files
    · simp [tarPrescanAux, h1, exOk]
    by_cases h2 : travName e.name = true
    · simp [tarPrescanAux, h1, h2, exOk]
    by_cases hf : e.isfile = true
    · by_cases h3 : total + e.size > lim.max_total_size
      · simp [tarPrescanAux, h1, h2, hf, h3, exOk]
      by_cases h4 : e.size > lim.max_file_size
      · simp [tarPrescanAux, h1, h2, hf, h3, h4, exOk]
      rw [show tarPrescanAux lim (e :: rest) count total =
          tarPrescanAux lim rest (count + 1) (total + e.size) by
        simp [tarPrescanAux, h1, h2, hf, h3, h4]]
      apply ih (count + 1) (total + e.size) (by omega) (by omega)
      rcases h with h | h | h | h
      · left; simp at h ⊢; omega
      · rcases h with ⟨x, hx, hxt⟩
        rcases List.mem_cons.mp hx with rfl | hx'
        · exact absurd hxt h2
        · exact Or.inr (Or.inl ⟨x, hx', hxt⟩)
      · refine Or.inr (Or.inr (Or.inl ?_))
        simp [tarTotal, hf] at h; omega
      · rcases h with ⟨x, hx, hxt⟩
        rcases List.mem_cons.mp hx with rfl | hx'
        · exact absurd hxt.2 h4
        · exact Or.inr (Or.inr (Or.inr ⟨x, hx', hxt⟩))
    · rw [show tarPrescanAux lim (e :: rest) count total =
          tarPrescanAux lim rest (count + 1) total by
        simp [tarPrescanAux, h1, h2, hf]]
      apply ih (count + 1) total (by omega) ht
      rcases h with h | h | h | h
      · left; simp at h ⊢; omega
      · rcases h with ⟨x, hx, hxt⟩
        rcases List.mem_cons.mp hx with rfl | hx'
        · exact absurd hxt h2
        · exact Or.inr (Or.inl ⟨x, hx', hxt⟩)
      · refine Or.inr (Or.inr (Or.inl ?_))
        simp [tarTotal, hf] at h
        omega
      · rcases h with ⟨x, hx, hxt⟩
        rcases List.mem_cons.mp hx with rfl | hx'
        · exact absurd hxt.1 hf
        · exact Or.inr (Or.inr (Or.inr ⟨x, hx', hxt⟩))

/-- C2 (amended): both pre-scans run over the declared entry list before any
physical extraction and raise ArchiveBombError when the entry count exceeds
max_files, when any entry name contains ".." or starts with "/", or when
the declared sizes exceed max_file_size / max_total_size — for the ZIP
family counting every entry size, and for the TAR family counting the sizes
of regular-file members only (non-regular members are exempt from the two
size limits, though they still count toward max_files and the traversal
check). -/
theorem C2_amended_prescan_limits :
    (∀ (lim : ArchiveLimits) (entries : List ZipEntry),
      (entries.length > lim.max_files ∨
        (∃ e ∈ entries, travName e.filename = true) ∨
        zipTotal entries > lim.max_total_size ∨
        (∃ e ∈ entries, e.file_size > lim.max_file_size)) →
      exOk (extractZipWithProtection lim entries) = false) ∧
    (∀ (lim : ArchiveLimits) (entries : List TarEntry),
      (entries.length > lim.max_files ∨
        (∃ e ∈ entries, travName e.name = true) ∨
        tarTotal entries > lim.max_total_size ∨
        (∃ e ∈ entries, e.isfile = true ∧ e.size > lim.max_file_size)) →
      exOk (extractTarWithProtection lim entries) = false) := by
  constructor
  · intro lim entries h
    exact zipPrescanAux_err lim entries 0 0 (Nat.zero_le _) (Nat.zero_le _)
      (by simpa using h)
  · intro lim entries h
    exact tarPrescanAux_err lim entries 0 0 (Nat.zero_le _) (Nat.zero_le _)
      (by simpa using h)

/-- C2 amended witness: a traversal ZIP name is rejected and an oversized
regular TAR member is rejected. -/
theorem C2_amended_witness :
    exOk (extractZipWithProtection limC [⟨"../evil", 1⟩]) = false ∧
    exOk (extractTarWithProtection limC [⟨"big", 11, true⟩]) = false :=
  ⟨C2_amended_prescan_limits.1 limC [⟨"../evil", 1⟩]
      (Or.inr (Or.inl ⟨⟨"../evil", 1⟩, by simp, by decide⟩)),
    C2_amended_prescan_limits.2 limC [⟨"big", 11, true⟩]
      (Or.inr (Or.inr (Or.inr ⟨⟨"big", 11, true⟩, by simp, rfl, by decide⟩)))⟩

deriving instance DecidableEq for Except

/- Path validator (`_validate_file_path`, pipeline.py lines 202-260).
Existence is the file-system lookup; being a regular file and resolving
under an allowed root (the configured source directory or the system temp
directory) are resolution facts supplied by the `World`. -/

def validateFilePath (cfg : Config) (w : World) (fs : FS) (fp : String) :
    Except String Unit :=
  if strHasSub fp ".." || strHasSub fp "~" then
    .error ("Path traversal detected in: " ++ fp)
  else if (lookupFS fs fp).isNone then .error ("File does not exist: " ++ fp)
  else if !w.isFile fp then .error ("Path is not a regular file: " ++ fp)
  else if !(w.resolvesUnder fp cfg.sourceDir || w.resolvesUnder fp cfg.tmpDir) then
    .error ("File path outside allowed directories: " ++ fp)
  else .ok ()

def errMsg : Except String Unit → String
  | .error m => m
  | .ok _ => ""

/- Stability detector outcome (`_check_file_stability`, lines 262-315):
immediately stable when disabled, otherwise the polling result. -/
def checkFileStabilityM (cfg : Config) (w : World) (fp : String) : Bool :=
  if !cfg.checkStability then true else w.stable fp

/- The scan-stage gate of `process_file` (lines 345-349):
`enable_security_scan or not clamav_available and fail_closed`, with the
Python precedence `a or (b and c)`. -/
def scanGuard (cfg : Config) (w : World) : Bool :=
  cfg.enableSecurityScan || (!w.clamavAvailable && cfg.failClosed)

/- Archive format dispatch (lines 522-527). -/
def isZipName (fp : String) : Bool :=
  strEndsWithL (strLower fp) ".zip" || strEndsWithL (strLower fp) ".jar"

def isTarName (fp : String) : Bool :=
  strEndsWithL (strLower fp) ".tar" || strEndsWithL (strLower fp) ".tar.gz" ||
  strEndsWithL (strLower fp) ".tgz" || strEndsWithL (strLower fp) ".tar.bz2"

/- The loop over extracted files (lines 580-597): each file is resubmitted
to the pipeline through the `World.recurse` oracle; per-file failures are
swallowed, successes contribute their final path. -/
def recurseAll (w : World) : FS → List String → List String × FS
  | fs, [] => ([], fs)
  | fs, f :: rest =>
    let r := w.recurse fs f
    let acc := recurseAll w r.2 rest
    (if r.1.success then r.1.final_path.getD "" :: acc.1 else acc.1, acc.2)

/- `_process_archive` (lines 500-618): pre-scan/extract, walk re-check,
recursive resubmission, then organization of the original archive; an
ArchiveBombError at any stage quarantines the original archive and any
other failure yields a failed result. -/

def processArchivePost (cfg : Config) (w : World) (fs : FS) (fp : String) :
    ProcessingResult × FS :=
  match walkCheck cfg.limits (w.extractedTree fp) with
  | .error m => quarantineFile cfg w fs fp ⟨false, some "ArchiveBomb", some m⟩
  | .ok _ =>
    let rr := recurseAll w fs (w.extractedFiles fp)
    match organizeFile cfg w rr.2 fp "archive" none with
    | .ok (p, fs2) => (⟨true, some p, none⟩, fs2)
    | .error m => (⟨false, none, some ("Archive processing failed: " ++ m)⟩, rr.2)

def processArchive (cfg : Config) (w : World) (fs : FS) (fp : String) :
    ProcessingResult × FS :=
  if isZipName fp then
    match extractZipWithProtection cfg.limits (w.zipEntries fp) with
    | .error m => quarantineFile cfg w fs fp ⟨false, some "ArchiveBomb", some m⟩
    | .ok _ => processArchivePost cfg w fs fp
  else if isTarName fp then
    match extractTarWithProtection cfg.limits (w.tarEntries fp) with
    | .error m => quarantineFile cfg w fs fp ⟨false, some "ArchiveBomb", some m⟩
    | .ok _ => processArchivePost cfg w fs fp
  else (⟨false, none, some "Unsupported archive format"⟩, fs)

/- The body of the `try` block of `process_file` (lines 327-370); an
`.error` is an exception escaping to the top-level handler.  The scan is
side-effect free, so guarding its quarantine decision by
`scanGuard && not is_clean` is the two nested ifs of lines 345-352. -/
def processFileBody (cfg : Config) (w : World) (fs : FS) (fp : String) :
    Except String (ProcessingResult × FS) :=
  match validateFilePath cfg w fs fp with
  | .error m =>
    .ok (quarantineFile cfg w fs fp ⟨false, some "PathValidationError", some m⟩)
  | .ok _ =>
    if !(checkFileStabilityM cfg w fp) then
      .ok (⟨false, none, some "File not stable for processing"⟩, fs)
    else if scanGuard cfg w &&
        !(scanFileSecurity w.clamavAvailable cfg.failClosed fp
          (w.scanOutcome fp)).is_clean then
      .ok (quarantineFile cfg w fs fp
        (scanFileSecurity w.clamavAvailable cfg.failClosed fp (w.scanOutcome fp)))
    else if w.classify fp = "archive" && cfg.enableArchiveExtraction then
      .ok (processArchive cfg w fs fp)
    else
      match organizeFile cfg w fs fp (w.classify fp)
        (if cfg.enableOcr && (w.classify fp = "image" || w.classify fp = "pdf")
          then w.ocr fp else none) with
      | .ok (p, fs1) => .ok (⟨true, some p, none⟩, fs1)
      | .error m => .error m

/- `process_file` (lines 317-374): the body with its top-level
`except Exception` handler converting any escaped exception into a failed
result. -/
def processFile (cfg : Config) (w : World) (fs : FS) (fp : String) :
    ProcessingResult × FS :=
  match processFileBody cfg w fs fp with
  | .ok r => r
  | .error m => (⟨false, none, some m⟩, fs)

/- The flat destination used for a non-archive, non-OCR file. -/
def textDest (cfg : Config) (w : World) (fp : String) : String :=
  pjoin (pjoin cfg.destinationDir
    (lookupD cfg.categories (mapCategory (w.classify fp)) (w.classify fp)))
    (pathName fp)

/-- C4: a path whose raw string carries ".." or "~", or that does not exist,
is not a regular file, or does not resolve under the source root or the
temp directory, fails validation, and process_file (for every behaviour of
the later stages) routes it to quarantine with threat name
PathValidationError rather than returning a generic error result. -/
theorem C4_path_validation_quarantine (cfg : Config) (w : World) (fs : FS)
    (fp : String)
    (h : strHasSub fp ".." = true ∨ strHasSub fp "~" = true ∨
      lookupFS fs fp = none ∨ w.isFile fp = false ∨
      (w.resolvesUnder fp cfg.sourceDir = false ∧
        w.resolvesUnder fp cfg.tmpDir = false)) :
    exOk (validateFilePath cfg w fs fp) = false ∧
    processFile cfg w fs fp =
      quarantineFile cfg w fs fp
        ⟨false, some "PathValidationError",
          some (errMsg (validateFilePath cfg w fs fp))⟩ := by
  have hv : ∃ m, validateFilePath cfg w fs fp = .error m := by
    by_cases c1 : (strHasSub fp ".." || strHasSub fp "~") = true
    · exact ⟨"Path traversal detected in: " ++ fp, by simp [validateFilePath, c1]⟩
    by_cases c2 : (lookupFS fs fp).isNone = true
    · exact ⟨"File does not exist: " ++ fp, by simp [validateFilePath, c1, c2]⟩
    by_cases c3 : (!w.isFile fp) = true
    · exact ⟨"Path is not a regular file: " ++ fp,
        by simp [validateFilePath, c1, c2, c3]⟩
    by_cases c4 : (!(w.resolvesUnder fp cfg.sourceDir ||
        w.resolvesUnder fp cfg.tmpDir)) = true
    · exact ⟨"File path outside allowed directories: " ++ fp,
        by simp [validateFilePath, c1, c2, c3, c4]⟩
    exfalso
    simp at c1 c2 c3 c4
    rcases h with h | h | h | h | h
    · simp [h] at c1
    · simp [h] at c1
    · simp [h] at c2
    · simp [h] at c3
    · simp [h.1, h.2] at c4
  obtain ⟨m, hm⟩ := hv
  refine ⟨by simp [exOk, hm], ?_⟩
  simp [processFile, processFileBody, hm, errMsg]

/-- C10: with security scanning disabled in configuration but the scanner
binary unavailable under the default fail-closed flag, the scan stage still
executes and the file is quarantined with threat name AVUnavailable; the
scan-stage gate is off exactly when scanning is disabled and additionally
the scanner is available or fail-open is configured. -/
theorem C10_scan_gate :
    (∀ (cfg : Config) (w : World) (fs : FS) (fp : String),
      validateFilePath cfg w fs fp = .ok () →
      checkFileStabilityM cfg w fp = true →
      cfg.enableSecurityScan = false →
      w.clamavAvailable = false →
      cfg.failClosed = true →
      processFile cfg w fs fp =
        quarantineFile cfg w fs fp
          ⟨false, some "AVUnavailable", some "Antivirus scanner not available"⟩) ∧
    (∀ (cfg : Config) (w : World),
      scanGuard cfg w = false ↔
        (cfg.enableSecurityScan = false ∧
          (w.clamavAvailable = true ∨ cfg.failClosed = false))) := by
  constructor
  · intro cfg w fs fp hv hs he ha hf
    simp [processFile, processFileBody, hv, hs, scanGuard, he, ha, hf,
      scanFileSecurity]
  · intro cfg w
    cases he : cfg.enableSecurityScan <;> cases ha : w.clamavAvailable <;>
      cases hf : cfg.failClosed <;> simp [scanGuard, he, ha, hf]

/-- C7: a file that passes validation and stability, with the scan stage
gated off, classified neither as an archive nor as an OCR-applicable type,
is moved to destination/category/filename: the result is success with that
final path, the content is at the destination, and the file no longer
exists at its original path. -/
theorem C7_text_file_organized (cfg : Config) (w : World) (fs : FS)
    (fp c : String)
    (hv : validateFilePath cfg w fs fp = .ok ())
    (hs : checkFileStabilityM cfg w fp = true)
    (hg : scanGuard cfg w = false)
    (hc1 : w.classify fp ≠ "archive")
    (hc2 : w.classify fp ≠ "image")
    (hc3 : w.classify fp ≠ "pdf")
    (hl : lookupFS fs fp = some c)
    (hmk : w.mkdirFails (pjoin cfg.destinationDir
      (lookupD cfg.categories (mapCategory (w.classify fp))
        (w.classify fp))) = false)
    (hfree : lookupFS fs (textDest cfg w fp) = none)
    (hmv : w.moveFails fp (textDest cfg w fp) = false)
    (hne : fp ≠ textDest cfg w fp) :
    processFile cfg w fs fp =
      (⟨true, some (textDest cfg w fp), none⟩,
        setFS (eraseFS fs fp) (textDest cfg w fp) c) ∧
    lookupFS (processFile cfg w fs fp).2 (textDest cfg w fp) = some c ∧
    lookupFS (processFile cfg w fs fp).2 fp = none := by
  have horg : organizeFile cfg w fs fp (w.classify fp) none =
      .ok (textDest cfg w fp, setFS (eraseFS fs fp) (textDest cfg w fp) c) := by
    simp [organizeFile, enrichSegments, textDest] at hmk hfree hmv ⊢
    simp [hmk, resolveConflict, resolveConflictAux, candName, hfree,
      moveFile, hmv, hl]
  have hbody : processFileBody cfg w fs fp =
      .ok (⟨true, some (textDest cfg w fp), none⟩,
        setFS (eraseFS fs fp) (textDest cfg w fp) c) := by
    simp [processFileBody, hv, hs, hg, hc1, hc2, hc3, horg]
  have hpf : processFile cfg w fs fp =
      (⟨true, some (textDest cfg w fp), none⟩,
        setFS (eraseFS fs fp) (textDest cfg w fp) c) := by
    simp [processFile, hbody]
  refine ⟨hpf, ?_, ?_⟩
  · rw [hpf]
    exact lookupFS_setFS_self _ _ _
  · rw [hpf]
    show lookupFS (setFS (eraseFS fs fp) (textDest cfg w fp) c) fp = none
    rw [lookupFS_setFS_ne _ _ _ _ (Ne.symm hne)]
    exact lookupFS_eraseFS_self fs fp

/-- C3: an ArchiveBombError raised by either pre-scan or by the
post-extraction walk routes the original archive to quarantine with threat
name ArchiveBomb (not as a generic failure); when the quarantine move and
audit write go through, the result is successful with the quarantine path
and the archive no longer exists at its original location. -/
theorem C3_archive_bomb_quarantine :
    (∀ (cfg : Config) (w : World) (fs : FS) (fp m : String),
      ((isZipName fp = true ∧
          extractZipWithProtection cfg.limits (w.zipEntries fp) = .error m) ∨
        (isZipName fp = false ∧ isTarName fp = true ∧
          extractTarWithProtection cfg.limits (w.tarEntries fp) = .error m) ∨
        (isZipName fp = true ∧
          extractZipWithProtection cfg.limits (w.zipEntries fp) = .ok () ∧
          walkCheck cfg.limits (w.extractedTree fp) = .error m) ∨
        (isZipName fp = false ∧ isTarName fp = true ∧
          extractTarWithProtection cfg.limits (w.tarEntries fp) = .ok () ∧
          walkCheck cfg.limits (w.extractedTree fp) = .error m)) →
      processArchive cfg w fs fp =
        quarantineFile cfg w fs fp ⟨false, some "ArchiveBomb", some m⟩) ∧
    (∀ (cfg : Config) (w : World) (fs : FS) (fp m c : String),
      ((isZipName fp = true ∧
          extractZipWithProtection cfg.limits (w.zipEntries fp) = .error m) ∨
        (isZipName fp = false ∧ isTarName fp = true ∧
          extractTarWithProtection cfg.limits (w.tarEntries fp) = .error m) ∨
        (isZipName fp = true ∧
          extractZipWithProtection cfg.limits (w.zipEntries fp) = .ok () ∧
          walkCheck cfg.limits (w.extractedTree fp) = .error m) ∨
        (isZipName fp = false ∧ isTarName fp = true ∧
          extractTarWithProtection cfg.limits (w.tarEntries fp) = .ok () ∧
          walkCheck cfg.limits (w.extractedTree fp) = .error m)) →
      lookupFS fs fp = some c →
      w.moveFails fp (quarantinePath cfg w fp) = false →
      w.writeFails (quarantinePath cfg w fp ++ ".log") = false →
      fp ≠ quarantinePath cfg w fp →
      fp ≠ quarantinePath cfg w fp ++ ".log" →
      (processArchive cfg w fs fp).1 =
        ⟨true, some (quarantinePath cfg w fp), none⟩ ∧
      lookupFS (processArchive cfg w fs fp).2 fp = none) := by
  have main : ∀ (cfg : Config) (w : World) (fs : FS) (fp m : String),
      ((isZipName fp = true ∧
          extractZipWithProtection cfg.limits (w.zipEntries fp) = .error m) ∨
        (isZipName fp = false ∧ isTarName fp = true ∧
          extractTarWithProtection cfg.limits (w.tarEntries fp) = .error m) ∨
        (isZipName fp = true ∧
          extractZipWithProtection cfg.limits (w.zipEntries fp) = .ok () ∧
          walkCheck cfg.limits (w.extractedTree fp) = .error m) ∨
        (isZipName fp = false ∧ isTarName fp = true ∧
          extractTarWithProtection cfg.limits (w.tarEntries fp) = .ok () ∧
          walkCheck cfg.limits (w.extractedTree fp) = .error m)) →
      processArchive cfg w fs fp =
        quarantineFile cfg w fs fp ⟨false, some "ArchiveBomb", some m⟩ := by
    intro cfg w fs fp m h
    rcases h with ⟨hz, he⟩ | ⟨hz, ht, he⟩ | ⟨hz, he, hwk⟩ | ⟨hz, ht, he, hwk⟩
    · simp [processArchive, hz, he]
    · simp [processArchive, hz, ht, he]
    · simp [processArchive, hz, he, processArchivePost, hwk]
    · simp [processArchive, hz, ht, he, processArchivePost, hwk]
  refine ⟨main, ?_⟩
  intro cfg w fs fp m c h hl hm hw hne hnlog
  rw [main cfg w fs fp m h]
  have hq : quarantineFile cfg w fs fp ⟨false, some "ArchiveBomb", some m⟩ =
      (⟨true, some (quarantinePath cfg w fp), none⟩,
        setFS (setFS (eraseFS fs fp) (quarantinePath cfg w fp) c)
          (quarantinePath cfg w fp ++ ".log")
          (auditRecord w fp ⟨false, some "ArchiveBomb", some m⟩)) := by
    simp [quarantineFile, moveFile, hm, hl, writeFS, hw]
  rw [hq]
  refine ⟨rfl, ?_⟩
  show lookupFS _ fp = none
  rw [lookupFS_setFS_ne _ _ _ _ (Ne.symm hnlog),
    lookupFS_setFS_ne _ _ _ _ (Ne.symm hne)]
  exact lookupFS_eraseFS_self fs fp

/- Result invariant: every branch of the pipeline yields either success or
a result carrying an error message.  Helper lemmas for claim C5. -/

theorem quarantineFile_inv (cfg : Config) (w : World) (fs : FS) (fp : String)
    (sr : SecurityScanResult) :
    (quarantineFile cfg w fs fp sr).1.success = true ∨
    (quarantineFile cfg w fs fp sr).1.error ≠ none := by
  cases hm : moveFile w fs fp (quarantinePath cfg w fp) with
  | error m => right; simp [quarantineFile, hm]
  | ok fs1 =>
    cases hw2 : writeFS w fs1 (quarantinePath cfg w fp ++ ".log")
        (auditRecord w fp sr) with
    | error m => right; simp [quarantineFile, hm, hw2]
    | ok fs2 => left; simp [quarantineFile, hm, hw2]

theorem processArchivePost_inv (cfg : Config) (w : World) (fs : FS)
    (fp : String) :
    (processArchivePost cfg w fs fp).1.success = true ∨
    (processArchivePost cfg w fs fp).1.error ≠ none := by
  cases hwk : walkCheck cfg.limits (w.extractedTree fp) with
  | error m =>
    simpa [processArchivePost, hwk] using
      quarantineFile_inv cfg w fs fp ⟨false, some "ArchiveBomb", some m⟩
  | ok ct =>
    cases ho : organizeFile cfg w (recurseAll w fs (w.extractedFiles fp)).2 fp
        "archive" none with
    | ok pr =>
      obtain ⟨p, f2⟩ := pr
      left; simp [processArchivePost, hwk, ho]
    | error m => right; simp [processArchivePost, hwk, ho]

theorem processArchive_inv (cfg : Config) (w : World) (fs : FS)
    (fp : String) :
    (processArchive cfg w fs fp).1.success = true ∨
    (processArchive cfg w fs fp).1.error ≠ none := by
  by_cases hz : isZipName fp = true
  · cases he : extractZipWithProtection cfg.limits (w.zipEntries fp) with
    | error m =>
      simpa [processArchive, hz, he] using
        quarantineFile_inv cfg w fs fp ⟨false, some "ArchiveBomb", some m⟩
    | ok u =>
      simpa [processArchive, hz, he] using processArchivePost_inv cfg w fs fp
  · by_cases ht : isTarName fp = true
    · cases he : extractTarWithProtection cfg.limits (w.tarEntries fp) with
      | error m =>
        simpa [processArchive, hz, ht, he] using
          quarantineFile_inv cfg w fs fp ⟨false, some "ArchiveBomb", some m⟩
      | ok u =>
        simpa [processArchive, hz, ht, he] using
          processArchivePost_inv cfg w fs fp
    · right; simp [processArchive, hz, ht]

theorem processFileBody_ok_inv (cfg : Config) (w : World) (fs : FS)
    (fp : String) (r : ProcessingResult × FS)
    (h : processFileBody cfg w fs fp = .ok r) :
    r.1.success = true ∨ r.1.error ≠ none := by
  unfold processFileBody at h
  split at h
  · injection h with h2
    subst h2
    exact quarantineFile_inv _ _ _ _ _
  · split at h
    · injection h with h2
      subst h2
      right; simp
    · split at h
      · injection h with h2
        subst h2
        exact quarantineFile_inv _ _ _ _ _
      · split at h
        · injection h with h2
          subst h2
          exact processArchive_inv _ _ _ _
        · split at h
          · injection h with h2
            subst h2
            left; rfl
          · exact absurd h (by simp)

/-- C5: an exception escaping the pipeline body is caught by process_file
and converted into a failed result carrying the exception message; a
normally produced result is returned unchanged; and every call returns a
result that is either successful or carries an error message — nothing is
thrown across the public boundary. -/
theorem C5_exception_containment :
    (∀ (cfg : Config) (w : World) (fs : FS) (fp m : String),
      processFileBody cfg w fs fp = .error m →
      processFile cfg w fs fp = (⟨false, none, some m⟩, fs)) ∧
    (∀ (cfg : Config) (w : World) (fs : FS) (fp : String)
        (r : ProcessingResult × FS),
      processFileBody cfg w fs fp = .ok r → processFile cfg w fs fp = r) ∧
    (∀ (cfg : Config) (w : World) (fs : FS) (fp : String),
      (processFile cfg w fs fp).1.success = true ∨
      (processFile cfg w fs fp).1.error ≠ none) := by
  refine ⟨?_, ?_, ?_⟩
  · intro cfg w fs fp m h
    simp [processFile, h]
  · intro cfg w fs fp r h
    simp [processFile, h]
  · intro cfg w fs fp
    cases hb : processFileBody cfg w fs fp with
    | error m => right; simp [processFile, hb]
    | ok r =>
      simpa [processFile, hb] using processFileBody_ok_inv cfg w fs fp r hb

/- Further concrete fixtures for the witnesses. -/

def fsW : FS := [("/watch/f.txt", "data")]

def wC5 : World := { wQ2 with moveFails := fun _ _ => true }

def wC3 : World := { wQ2 with zipEntries := fun _ => [⟨"../evil", 1⟩] }

def cfg10 : Config := { cfgQ with enableSecurityScan := false }

def w10 : World := { wQ2 with clamavAvailable := false }

def w9 : World :=
  { wQ2 with mkdirFails := fun d => d == "/dst/documents/2026/01/invoice/Bob" }

def md9 : Option OCRMeta := some ⟨some "2026/01", some "invoice", some "Bob"⟩

def fs9 : FS := [("/watch/inv.pdf", "pdfdata")]

/-- C4 witness: a concrete traversal path is refused by validation and
quarantined. -/
theorem C4_witness :
    exOk (validateFilePath cfgQ wQ2 fsW "/watch/../etc/passwd") = false ∧
    processFile cfgQ wQ2 fsW "/watch/../etc/passwd" =
      quarantineFile cfgQ wQ2 fsW "/watch/../etc/passwd"
        ⟨false, some "PathValidationError",
          some (errMsg (validateFilePath cfgQ wQ2 fsW "/watch/../etc/passwd"))⟩ :=
  C4_path_validation_quarantine cfgQ wQ2 fsW "/watch/../etc/passwd"
    (Or.inl (by decide))

/-- C5 witness: a failing organize raises and is converted into a failed
result; a normal run returns its result unchanged; the invariant holds. -/
theorem C5_witness :
    processFile cfgQ wC5 fsW "/watch/f.txt" =
      (⟨false, none, some "move failed: /watch/f.txt"⟩, fsW) ∧
    processFile cfgQ wQ2 fsW "/watch/f.txt" =
      (⟨true, some "/dst/documents/f.txt", none⟩,
        [("/dst/documents/f.txt", "data")]) ∧
    ((processFile cfgQ wC5 fsW "/watch/f.txt").1.success = true ∨
      (processFile cfgQ wC5 fsW "/watch/f.txt").1.error ≠ none) :=
  ⟨C5_exception_containment.1 cfgQ wC5 fsW "/watch/f.txt"
      "move failed: /watch/f.txt" (by decide),
    C5_exception_containment.2.1 cfgQ wQ2 fsW "/watch/f.txt"
      (⟨true, some "/dst/documents/f.txt", none⟩,
        [("/dst/documents/f.txt", "data")]) (by decide),
    C5_exception_containment.2.2 cfgQ wC5 fsW "/watch/f.txt"⟩

/-- C7 witness: a concrete text file is moved to
destination/documents/notes.txt. -/
theorem C7_witness :
    processFile cfg10 wQ2 [("/watch/notes.txt", "hello")] "/watch/notes.txt" =
      (⟨true, some (textDest cfg10 wQ2 "/watch/notes.txt"), none⟩,
        setFS (eraseFS [("/watch/notes.txt", "hello")] "/watch/notes.txt")
          (textDest cfg10 wQ2 "/watch/notes.txt") "hello") ∧
    lookupFS (processFile cfg10 wQ2 [("/watch/notes.txt", "hello")]
        "/watch/notes.txt").2 (textDest cfg10 wQ2 "/watch/notes.txt") =
      some "hello" ∧
    lookupFS (processFile cfg10 wQ2 [("/watch/notes.txt", "hello")]
        "/watch/notes.txt").2 "/watch/notes.txt" = none :=
  C7_text_file_organized cfg10 wQ2 [("/watch/notes.txt", "hello")]
    "/watch/notes.txt" "hello" (by decide) rfl rfl (by decide) (by decide)
    (by decide) (by decide) rfl (by decide) rfl (by decide)

/-- C3 witness: a ZIP with a traversal member name is quarantined as an
archive bomb and removed from its original location. -/
theorem C3_witness :
    processArchive cfgQ wC3 [("/watch/a.zip", "zipdata")] "/watch/a.zip" =
      quarantineFile cfgQ wC3 [("/watch/a.zip", "zipdata")] "/watch/a.zip"
        ⟨false, some "ArchiveBomb",
          some "Path traversal detected in ZIP member: ../evil"⟩ ∧
    (processArchive cfgQ wC3 [("/watch/a.zip", "zipdata")] "/watch/a.zip").1 =
      ⟨true, some (quarantinePath cfgQ wC3 "/watch/a.zip"), none⟩ ∧
    lookupFS (processArchive cfgQ wC3 [("/watch/a.zip", "zipdata")]
        "/watch/a.zip").2 "/watch/a.zip" = none :=
  ⟨C3_archive_bomb_quarantine.1 cfgQ wC3 [("/watch/a.zip", "zipdata")]
      "/watch/a.zip" "Path traversal detected in ZIP member: ../evil"
      (Or.inl ⟨by decide, by decide⟩),
    (C3_archive_bomb_quarantine.2 cfgQ wC3 [("/watch/a.zip", "zipdata")]
        "/watch/a.zip" "Path traversal detected in ZIP member: ../evil"
        "zipdata" (Or.inl ⟨by decide, by decide⟩) (by decide) rfl rfl
        (by decide) (by decide)).1,
    (C3_archive_bomb_quarantine.2 cfgQ wC3 [("/watch/a.zip", "zipdata")]
        "/watch/a.zip" "Path traversal detected in ZIP member: ../evil"
        "zipdata" (Or.inl ⟨by decide, by decide⟩) (by decide) rfl rfl
        (by decide) (by decide)).2⟩

/-- C9 witness: with the enriched directory creation failing, a concrete
document lands at the flat fallback destination. -/
theorem C9_witness :
    organizeFile cfgQ w9 fs9 "/watch/inv.pdf" "document" md9 =
      .ok (pjoin (pjoin cfgQ.destinationDir
            (lookupD cfgQ.categories "document" "document"))
          (pathName "/watch/inv.pdf"),
        setFS (eraseFS fs9 "/watch/inv.pdf")
          (pjoin (pjoin cfgQ.destinationDir
              (lookupD cfgQ.categories "document" "document"))
            (pathName "/watch/inv.pdf")) "pdfdata") ∧
    lookupFS (setFS (eraseFS fs9 "/watch/inv.pdf")
        (pjoin (pjoin cfgQ.destinationDir
            (lookupD cfgQ.categories "document" "document"))
          (pathName "/watch/inv.pdf")) "pdfdata")
      (pjoin (pjoin cfgQ.destinationDir
          (lookupD cfgQ.categories "document" "document"))
        (pathName "/watch/inv.pdf")) = some "pdfdata" ∧
    lookupFS (setFS (eraseFS fs9 "/watch/inv.pdf")
        (pjoin (pjoin cfgQ.destinationDir
            (lookupD cfgQ.categories "document" "document"))
          (pathName "/watch/inv.pdf")) "pdfdata") "/watch/inv.pdf" = none :=
  C9_organizer_fallback cfgQ w9 fs9 "/watch/inv.pdf" "document" md9 "pdfdata"
    (by decide) (by decide) (by decide) rfl (by decide)

/-- C10 witness: scanning disabled, scanner absent, fail-closed: the file is
quarantined with AVUnavailable; the gate equivalence at a concrete
configuration. -/
theorem C10_witness :
    processFile cfg10 w10 fsW "/watch/f.txt" =
      quarantineFile cfg10 w10 fsW "/watch/f.txt"
        ⟨false, some "AVUnavailable", some "Antivirus scanner not available"⟩ ∧
    (scanGuard cfgQ wQ2 = false ↔
      (cfgQ.enableSecurityScan = false ∧
        (wQ2.clamavAvailable = true ∨ cfgQ.failClosed = false))) :=
  ⟨C10_scan_gate.1 cfg10 w10 fsW "/watch/f.txt" (by decide) rfl rfl rfl rfl,
    C10_scan_gate.2 cfgQ wQ2⟩
